import Mathlib

/-!
Verification of the entitlement ledger and payment reconciliation core of the
resolver repository. The Python source in src/app/db.py and src/app/handlers.py
is shallowly embedded: each SQLite table becomes a list of rows, each DB method
and handler becomes a pure function from a database state to a new state plus a
result, and timestamps and amounts are unbounded integers, matching Python int.
-/

namespace Resolver

/-! ## Plan catalog (src/app/pricing.py) -/

/-- Row type of PERSONAL_PLANS in src/app/pricing.py. -/
structure PersonalPlan where
  id : String
  name : String
  stars : Int
  resolves : Int
deriving DecidableEq, Repr

/-- Row type of GROUP_PLANS in src/app/pricing.py. -/
structure GroupPlan where
  id : String
  name : String
  stars : Int
  durationDays : Option Int
deriving DecidableEq, Repr

/-- Row type of RAG_ADDON_PLANS in src/app/pricing.py. -/
structure RagAddonPlan where
  id : String
  name : String
  stars : Int
  durationDays : Option Int
deriving DecidableEq, Repr

/-- The PERSONAL_PLANS dictionary of src/app/pricing.py as a lookup function. -/
def PERSONAL_PLANS : String → Option PersonalPlan
  | "personal_monthly" => some ⟨"personal_monthly", "Monthly", 50, 1⟩
  | "personal_yearly" => some ⟨"personal_yearly", "Yearly", 450, 5⟩
  | "personal_lifetime" => some ⟨"personal_lifetime", "Lifetime", 1000, 15⟩
  | _ => none

/-- The GROUP_PLANS dictionary of src/app/pricing.py as a lookup function. -/
def GROUP_PLANS : String → Option GroupPlan
  | "group_monthly" => some ⟨"group_monthly", "Monthly", 150, some 30⟩
  | "group_yearly" => some ⟨"group_yearly", "Yearly", 1500, some 365⟩
  | "group_charter" => some ⟨"group_charter", "Charter", 4000, none⟩
  | _ => none

/-- The RAG_ADDON_PLANS dictionary of src/app/pricing.py as a lookup function. -/
def RAG_ADDON_PLANS : String → Option RagAddonPlan
  | "rag_monthly" => some ⟨"rag_monthly", "RAG Monthly Add-On", 50, some 30⟩
  | _ => none

/-! ## Plan references

The handlers read the plan_id column of an invoice and classify it with
parse_group_plan_key, parse_rag_plan_key and parse_personal_plan_key, all
imported from src/app/payments.py. -/

/-- Modelled from the spec: the build and parse plan-key helpers are imported
by src/app/handlers.py from src/app/payments.py but are absent from the file
under src/. Section 3 of the spec describes the invoice payload key as a closed
tagged union PlanReference with category Personal, Group or Addon, where the
group identifier is present exactly for the Group and Addon categories, and
section 9 mandates a closed tagged variant rather than a string convention.
The plan_id column of an embedded invoice therefore carries this variant. -/
inductive PlanKey where
  | personal (planId : String)
  | group (planId : String) (groupId : Int)
  | rag (planId : String) (groupId : Int)
deriving DecidableEq, Repr

/-- Modelled from the spec: parse_group_plan_key (absent from
src/app/payments.py) recovers the plan id and group id of a Group-category
key and returns None for every other key. -/
def parse_group_plan_key : PlanKey → Option (String × Int)
  | .group pid gid => some (pid, gid)
  | _ => none

/-- Modelled from the spec: parse_rag_plan_key (absent from
src/app/payments.py) recovers the plan id and group id of an Addon-category
key and returns None for every other key. -/
def parse_rag_plan_key : PlanKey → Option (String × Int)
  | .rag pid gid => some (pid, gid)
  | _ => none

/-- Modelled from the spec: parse_personal_plan_key (absent from
src/app/payments.py) recovers the plan id of a Personal-category key and
returns None for every other key. -/
def parse_personal_plan_key : PlanKey → Option String
  | .personal pid => some pid
  | _ => none

/-- Modelled from the spec: the raw string form of a plan key, used by the
handlers only as the fallback of parse_personal_plan_key. Group and Addon
encodings carry a category marker, so they never collide with a bare personal
plan id (section 6 requires delimiter-safe, lossless encoding). -/
def plan_key_str : PlanKey → String
  | .personal pid => pid
  | .group pid _ => String.append "group:" pid
  | .rag pid _ => String.append "rag:" pid

/-- Modelled from the spec: INVOICE_TTL_SECONDS is imported by
src/app/handlers.py from src/app/payments.py but absent from the file under
src/; section 4.3 gives 24 hours as the invoice TTL. -/
def INVOICE_TTL_SECONDS : Int := 86400

/-! ## Database state (tables of the SCHEMA in src/app/db.py) -/

/-- A row of the users table (the columns the payment core touches). -/
structure UserRow where
  userId : Int
  resolvesRemaining : Int
deriving DecidableEq, Repr

/-- A row of the purchases table. -/
structure PurchaseRow where
  userId : Int
  starsAmount : Int
  resolvesAdded : Int
  transactionId : String
deriving DecidableEq, Repr

/-- A row of the group_subscriptions table; also the row shape of the
AddonSubscription ledger, which the spec calls structurally identical. -/
structure SubRow where
  groupId : Int
  planId : String
  status : String
  startTs : Int
  endTs : Option Int
  starsAmount : Int
  transactionId : String
deriving DecidableEq, Repr

/-- A row of the invoices table. -/
structure Invoice where
  invoiceId : String
  userId : Int
  planId : PlanKey
  amount : Int
  currency : String
  status : String
  createdAt : Int
  telegramChargeId : Option String
deriving DecidableEq, Repr

/-- The persisted state: one list per table. ragSubs is the AddonSubscription
ledger written by the RAG add-on flow. groups and retryFlags record only the
keys the ensure upserts insert. -/
structure DBState where
  users : List UserRow
  purchases : List PurchaseRow
  invoices : List Invoice
  groupSubs : List SubRow
  ragSubs : List SubRow
  groups : List Int
  retryFlags : List Int
deriving DecidableEq, Repr

/-! ## DB helper operations -/

/-- SELECT of a single invoice by primary key, as in DB.get_invoice. -/
def findInvoice (invs : List Invoice) (iid : String) : Option Invoice :=
  invs.find? (fun r => r.invoiceId == iid)

/-- EXISTS query on invoices.telegram_charge_id (a NULL charge id matches
nothing). -/
def hasInvoiceCharge (invs : List Invoice) (cid : String) : Bool :=
  invs.any (fun r => r.telegramChargeId == some cid)

/-- EXISTS query on purchases.transaction_id. -/
def hasPurchaseCharge (ps : List PurchaseRow) (cid : String) : Bool :=
  ps.any (fun p => p.transactionId == cid)

/-- EXISTS query on a subscription ledger transaction_id column. -/
def hasSubCharge (subs : List SubRow) (cid : String) : Bool :=
  subs.any (fun s => s.transactionId == cid)

/-- EXISTS query on invoices.invoice_id, the primary-key conflict test of
INSERT OR IGNORE in DB.create_invoice. -/
def hasInvoiceId (invs : List Invoice) (iid : String) : Bool :=
  invs.any (fun r => r.invoiceId == iid)

/-- The row transformation of the conditional UPDATE in
DB.process_invoice_payment and DB.process_group_invoice_payment: SET
status = paid, telegram_charge_id = cid WHERE invoice_id = iid AND
status = created. -/
def markPaid (iid cid : String) (r : Invoice) : Invoice :=
  if r.invoiceId == iid && r.status == "created" then
    { r with status := "paid", telegramChargeId := some cid }
  else r

/-- The rowcount of that conditional UPDATE. -/
def updateRowcount (invs : List Invoice) (iid : String) : Nat :=
  invs.countP (fun r => r.invoiceId == iid && r.status == "created")

/-- The conditional UPDATE itself: the new invoices table and the number of
rows it affected. -/
def conditionalPaidUpdate (invs : List Invoice) (iid cid : String) :
    List Invoice × Nat :=
  (invs.map (markPaid iid cid), updateRowcount invs iid)

/-- DB._ensure_user_conn with no profile fields: insert the user with a zero
balance (and a retry_flags row) when absent, otherwise change nothing. -/
def ensure_user (st : DBState) (uid : Int) : DBState :=
  if st.users.any (fun u => u.userId == uid) then st
  else { st with users := st.users ++ [(⟨uid, 0⟩ : UserRow)],
                 retryFlags := st.retryFlags ++ [uid] }

/-- DB.ensure_group: INSERT OR IGNORE of the group key. -/
def ensure_group (st : DBState) (gid : Int) : DBState :=
  if st.groups.contains gid then st
  else { st with groups := st.groups ++ [gid] }

/-- The UPDATE of users.resolves_remaining by a delta, as issued at the end of
DB.process_invoice_payment. -/
def addResolvesUpdate (users : List UserRow) (uid delta : Int) : List UserRow :=
  users.map (fun u =>
    if u.userId == uid then { u with resolvesRemaining := u.resolvesRemaining + delta }
    else u)

/-- DB.create_invoice: INSERT OR IGNORE keyed on the invoice_id primary key;
returns whether the row was inserted. The now argument stands for the
int(time.time()) call inside the method. -/
def create_invoice (st : DBState) (iid : String) (uid : Int) (pk : PlanKey)
    (amount : Int) (currency : String) (now : Int) : DBState × Bool :=
  if hasInvoiceId st.invoices iid then (st, false)
  else ({ st with invoices :=
            st.invoices ++ [(⟨iid, uid, pk, amount, currency, "created", now, none⟩ : Invoice)] },
        true)

/-- DB.process_invoice_payment of src/app/db.py, lines 759 to 820. -/
def process_invoice_payment (st : DBState) (iid cid : String) (uid : Int)
    (stars resolvesAdded : Int) : DBState × String :=
  if cid == "" then (st, "invalid")
  else if hasInvoiceCharge st.invoices cid then (st, "duplicate")
  else if hasPurchaseCharge st.purchases cid then (st, "duplicate")
  else
    match findInvoice st.invoices iid with
    | none => (st, "invalid")
    | some row =>
      if row.status != "created" then (st, "invalid")
      else
        let upd := conditionalPaidUpdate st.invoices iid cid
        let st1 := { st with invoices := upd.1 }
        if upd.2 != 1 then (st1, "invalid")
        else
          let st2 := ensure_user st1 uid
          if hasPurchaseCharge st2.purchases cid then (st2, "duplicate")
          else
            let st3 := { st2 with purchases :=
                          st2.purchases ++ [(⟨uid, stars, resolvesAdded, cid⟩ : PurchaseRow)] }
            ({ st3 with users := addResolvesUpdate st3.users uid resolvesAdded },
             "processed")

/-- DB.process_group_invoice_payment of src/app/db.py, lines 822 to 880. -/
def process_group_invoice_payment (st : DBState) (iid cid : String) (gid : Int)
    (planId : String) (stars startTs : Int) (endTs : Option Int) :
    DBState × String :=
  if cid == "" then (st, "invalid")
  else if hasInvoiceCharge st.invoices cid then (st, "duplicate")
  else if hasSubCharge st.groupSubs cid then (st, "duplicate")
  else
    match findInvoice st.invoices iid with
    | none => (st, "invalid")
    | some row =>
      if row.status != "created" then (st, "invalid")
      else
        let upd := conditionalPaidUpdate st.invoices iid cid
        let st1 := { st with invoices := upd.1 }
        if upd.2 != 1 then (st1, "invalid")
        else if hasSubCharge st1.groupSubs cid then (st1, "duplicate")
        else
          ({ st1 with groupSubs :=
               st1.groupSubs ++ [(⟨gid, planId, "active", startTs, endTs, stars, cid⟩ : SubRow)] },
           "processed")

/-- Modelled from the spec: DB.process_rag_invoice_payment is called by the
confirmation handler (src/app/handlers.py line 2314) but absent from
src/app/db.py. Section 4.4 step 6 makes the Addon case follow the Group
algorithm with the same window computation, writing the AddonSubscription
ledger instead, and section 3 makes that ledger structurally identical to
GroupSubscription with a unique transaction id. -/
def process_rag_invoice_payment (st : DBState) (iid cid : String) (gid : Int)
    (planId : String) (stars startTs : Int) (endTs : Option Int) :
    DBState × String :=
  if cid == "" then (st, "invalid")
  else if hasInvoiceCharge st.invoices cid then (st, "duplicate")
  else if hasSubCharge st.ragSubs cid then (st, "duplicate")
  else
    match findInvoice st.invoices iid with
    | none => (st, "invalid")
    | some row =>
      if row.status != "created" then (st, "invalid")
      else
        let upd := conditionalPaidUpdate st.invoices iid cid
        let st1 := { st with invoices := upd.1 }
        if upd.2 != 1 then (st1, "invalid")
        else if hasSubCharge st1.ragSubs cid then (st1, "duplicate")
        else
          ({ st1 with ragSubs :=
               st1.ragSubs ++ [(⟨gid, planId, "active", startTs, endTs, stars, cid⟩ : SubRow)] },
           "processed")

/-! ## Entitlement projections -/

/-- The liveness test a subscription row must pass: status = active and
(end_ts IS NULL OR end_ts > now). -/
def subRowLive (now : Int) (s : SubRow) : Bool :=
  s.status == "active" &&
    (match s.endTs with
     | none => true
     | some e => decide (now < e))

/-- DB.group_subscription_active of src/app/db.py, lines 882 to 896: the query
filters on group, status and expiry and asks whether any row survives; the
ORDER BY and LIMIT do not change that existence test. The now argument stands
for the datetime.utcnow() timestamp taken inside the method. -/
def group_subscription_active (st : DBState) (gid : Int) (now : Int) : Bool :=
  st.groupSubs.any (fun s => s.groupId == gid && subRowLive now s)

/-- One step of scanning for the most-recent-by-start_ts row: keep the row
with the larger start_ts, the earlier row winning ties. -/
def latestPick (acc : Option SubRow) (s : SubRow) : Option SubRow :=
  match acc with
  | none => some s
  | some b => if s.startTs > b.startTs then some s else some b

/-- The most-recent-by-start_ts row of a ledger for a group (ORDER BY start_ts
DESC LIMIT 1); the first row encountered wins ties. -/
def latestSubRow (subs : List SubRow) (gid : Int) : Option SubRow :=
  (subs.filter (fun s => s.groupId == gid)).foldl latestPick none

/-- The dictionary returned by the subscription info queries. -/
structure SubInfo where
  active : Bool
  endTs : Option Int
  planId : Option String
deriving DecidableEq, Repr

/-- DB.get_group_subscription_info of src/app/db.py, lines 898 to 921: take
the most recent row by start_ts and report its liveness, end_ts and plan_id. -/
def get_group_subscription_info (st : DBState) (gid : Int) (now : Int) : SubInfo :=
  match latestSubRow st.groupSubs gid with
  | none => ⟨false, none, none⟩
  | some row => ⟨subRowLive now row, row.endTs, some row.planId⟩

/-- Modelled from the spec: DB.get_group_rag_subscription_info is called by
src/app/handlers.py but absent from src/app/db.py. Section 3 defines
AddonActive by the same most-recent-row rule applied to the AddonSubscription
ledger, independently of whether the underlying group subscription is still
active. -/
def get_group_rag_subscription_info (st : DBState) (gid : Int) (now : Int) : SubInfo :=
  match latestSubRow st.ragSubs gid with
  | none => ⟨false, none, none⟩
  | some row => ⟨subRowLive now row, row.endTs, some row.planId⟩

/-- Modelled from the spec: DB.group_rag_subscription_active is called by
require_group_rag_entitlement in src/app/handlers.py but absent from
src/app/db.py; it reports the AddonActive projection. -/
def group_rag_subscription_active (st : DBState) (gid : Int) (now : Int) : Bool :=
  (get_group_rag_subscription_info st gid now).active

/-- The personal credit balance: the resolves_remaining column of the user
row, zero when the row is absent. -/
def get_personal_balance (st : DBState) (uid : Int) : Int :=
  match st.users.find? (fun u => u.userId == uid) with
  | none => 0
  | some u => u.resolvesRemaining

/-- DB.consume_paid_resolve of src/app/db.py, lines 985 to 995: ensure the
user row, then the conditional UPDATE decrementing resolves_remaining WHERE
user_id = uid AND resolves_remaining > 0; returns rowcount == 1. -/
def consume_paid_resolve (st : DBState) (uid : Int) : DBState × Bool :=
  let st1 := ensure_user st uid
  let cnt := st1.users.countP (fun u => u.userId == uid && u.resolvesRemaining > 0)
  let users2 := st1.users.map (fun u =>
    if u.userId == uid && u.resolvesRemaining > 0 then
      { u with resolvesRemaining := u.resolvesRemaining - 1 }
    else u)
  ({ st1 with users := users2 }, cnt == 1)

/-! ## Handlers (src/app/handlers.py) -/

/-- The _amount_from_total helper of src/app/handlers.py, lines 138 to 141:
XTR amounts are native, every other currency is divided by 100 (Python floor
division). -/
def amount_from_total (total : Int) (currency : String) : Int :=
  if currency == "XTR" then total else Int.fdiv total 100

/-- The _create_invoice_record helper of src/app/handlers.py, lines 105 to
122, with its bounded retry over generate_invoice_id. The ids stream stands
for the successive values produced by generate_invoice_id, which is imported
from src/app/payments.py but absent from the file under src/ (modelled from
the spec as an id source that takes no payer or plan input); i is the index of
the next fresh id and fuel the number of attempts left. -/
def create_invoice_attempts (st : DBState) (ids : Nat → String) (i : Nat)
    (uid : Int) (pk : PlanKey) (amount : Int) (currency : String) (now : Int) :
    Nat → DBState × Option String
  | 0 => (st, none)
  | fuel + 1 =>
    let r := create_invoice st (ids i) uid pk amount currency now
    if r.2 then (r.1, some (ids i))
    else create_invoice_attempts r.1 ids (i + 1) uid pk amount currency now fuel

/-- The _create_invoice_record helper: three attempts starting at the first
fresh id. -/
def create_invoice_record (st : DBState) (ids : Nat → String) (uid : Int)
    (pk : PlanKey) (amount : Int) (currency : String) (now : Int) :
    DBState × Option String :=
  create_invoice_attempts st ids 0 uid pk amount currency now 3

/-- The pre_checkout handler of src/app/handlers.py, lines 2114 to 2215, as a
pure function: the returned Bool is the ok flag of the answer to the payment
platform. The payload is the invoice id carried in invoice_payload; currency
and totalAmount are the claimed charge fields; now stands for int(time.time()). -/
def pre_checkout (st : DBState) (payload : String) (fromUserId : Int)
    (currency : String) (totalAmount : Int) (now : Int) : DBState × Bool :=
  match findInvoice st.invoices payload with
  | none => (st, false)
  | some inv =>
    if inv.status != "created" then (st, false)
    else if inv.userId != fromUserId then (st, false)
    else if now - inv.createdAt > INVOICE_TTL_SECONDS then (st, false)
    else if currency != inv.currency then (st, false)
    else if amount_from_total totalAmount currency != inv.amount then (st, false)
    else
      match parse_group_plan_key inv.planId with
      | some (pid, gid) =>
        (match GROUP_PLANS pid with
         | none => (st, false)
         | some plan =>
           if plan.stars != inv.amount then (st, false)
           else (ensure_group st gid, true))
      | none =>
        match parse_rag_plan_key inv.planId with
        | some (pid, gid) =>
          (match RAG_ADDON_PLANS pid with
           | none => (st, false)
           | some plan =>
             if plan.stars != inv.amount then (st, false)
             else if !group_subscription_active st gid now then (st, false)
             else (ensure_group st gid, true))
        | none =>
          let ppid := (parse_personal_plan_key inv.planId).getD (plan_key_str inv.planId)
          match PERSONAL_PLANS ppid with
          | none => (st, false)
          | some plan =>
            if plan.stars != inv.amount then (st, false)
            else (ensure_user st inv.userId, true)

/-- The distinct user-visible outcomes of the successful_payment handler. -/
inductive PayOutcome where
  | verificationFailed
  | alreadyProcessed
  | processingError
  | duplicate
  | processed
deriving DecidableEq, Repr

/-- The outcomes the spec folds into the Invalid result of Confirm: both the
payment-verification failure and the payment-processing error replies. -/
def PayOutcome.isInvalid : PayOutcome → Bool
  | .verificationFailed => true
  | .processingError => true
  | _ => false

/-- The successful_payment handler of src/app/handlers.py, lines 2218 to 2392,
as a pure function on the database state. payload is invoice_payload,
totalAmount and currency the paid charge fields, chargeId the
telegram_payment_charge_id, and now stands for int(time.time()); the same
instant is reused as start_ts. -/
def successful_payment (st : DBState) (payload : String) (fromUserId : Int)
    (totalAmount : Int) (currency : String) (chargeId : String) (now : Int) :
    DBState × PayOutcome :=
  match findInvoice st.invoices payload with
  | none => (st, .verificationFailed)
  | some inv =>
    if inv.userId != fromUserId then (st, .verificationFailed)
    else if inv.status != "created" then (st, .alreadyProcessed)
    else if now - inv.createdAt > INVOICE_TTL_SECONDS then (st, .verificationFailed)
    else
      let starsPaid := amount_from_total totalAmount currency
      if starsPaid != inv.amount then (st, .verificationFailed)
      else
        match parse_group_plan_key inv.planId with
        | some (pid, gid) =>
          (match GROUP_PLANS pid with
           | none => (st, .processingError)
           | some plan =>
             if plan.stars != starsPaid then (st, .processingError)
             else
               let endTs := plan.durationDays.map (fun d => now + d * 86400)
               let r := process_group_invoice_payment st payload chargeId gid
                          plan.id plan.stars now endTs
               if r.2 == "duplicate" then (r.1, .duplicate)
               else if r.2 != "processed" then (r.1, .processingError)
               else (r.1, .processed))
        | none =>
          match parse_rag_plan_key inv.planId with
          | some (pid, gid) =>
            (match RAG_ADDON_PLANS pid with
             | none => (st, .processingError)
             | some plan =>
               if plan.stars != starsPaid then (st, .processingError)
               else if !group_subscription_active st gid now then (st, .processingError)
               else
                 let endTs := plan.durationDays.map (fun d => now + d * 86400)
                 let r := process_rag_invoice_payment st payload chargeId gid
                            plan.id plan.stars now endTs
                 if r.2 == "duplicate" then (r.1, .duplicate)
                 else if r.2 != "processed" then (r.1, .processingError)
                 else (r.1, .processed))
          | none =>
            let ppid := (parse_personal_plan_key inv.planId).getD (plan_key_str inv.planId)
            match PERSONAL_PLANS ppid with
            | none => (st, .processingError)
            | some plan =>
              let r := process_invoice_payment st payload chargeId fromUserId
                         plan.stars plan.resolves
              if r.2 == "duplicate" then (r.1, .duplicate)
              else if r.2 != "processed" then (r.1, .processingError)
              else (r.1, .processed)

/-- Repeated confirmation of the same personal invoice with identical
arguments: the list of results in order, and the final state. -/
def confirm_personal_iter (iid cid : String) (uid : Int) (stars resolvesAdded : Int) :
    Nat → DBState → List String × DBState
  | 0, st => ([], st)
  | n + 1, st =>
    let r := process_invoice_payment st iid cid uid stars resolvesAdded
    let rest := confirm_personal_iter iid cid uid stars resolvesAdded n r.1
    (r.2 :: rest.1, rest.2)

/-- Repeated confirmation of the same group invoice with identical
arguments. -/
def confirm_group_iter (iid cid : String) (gid : Int) (planId : String)
    (stars startTs : Int) (endTs : Option Int) :
    Nat → DBState → List String × DBState
  | 0, st => ([], st)
  | n + 1, st =>
    let r := process_group_invoice_payment st iid cid gid planId stars startTs endTs
    let rest := confirm_group_iter iid cid gid planId stars startTs endTs n r.1
    (r.2 :: rest.1, rest.2)

/-! ## Concrete states used by counterexamples and witnesses -/

/-- A fresh personal invoice for payer 42, plan personal_monthly (50 stars,
1 resolve), created at time 1000, in an otherwise empty store. -/
def exStPersonal : DBState :=
  ⟨[], [], [⟨"inv1", 42, .personal "personal_monthly", 50, "XTR", "created", 1000, none⟩],
   [], [], [], []⟩

/-- A fresh group invoice for group 100, plan group_monthly (150 stars,
30 days), created at time 1000. -/
def exStGroup : DBState :=
  ⟨[], [], [⟨"gv1", 7, .group "group_monthly" 100, 150, "XTR", "created", 1000, none⟩],
   [], [], [], []⟩

/-- A fresh group invoice for group 100, plan group_charter (4000 stars, no
expiry), created at time 1000. -/
def exStCharter : DBState :=
  ⟨[], [], [⟨"cv1", 7, .group "group_charter" 100, 4000, "XTR", "created", 1000, none⟩],
   [], [], [], []⟩

/-- A fresh RAG add-on invoice for group 100 together with a live base group
subscription. -/
def exStRag : DBState :=
  ⟨[], [], [⟨"rv1", 7, .rag "rag_monthly" 100, 50, "XTR", "created", 1000, none⟩],
   [⟨100, "group_monthly", "active", 0, some 99999999, 150, "b1"⟩], [], [], []⟩

/-- A fresh RAG add-on invoice for group 100 with no group subscription at
all. -/
def exStRagNoBase : DBState :=
  ⟨[], [], [⟨"rv1", 7, .rag "rag_monthly" 100, 50, "XTR", "created", 1000, none⟩],
   [], [], [], []⟩

/-- Two subscription rows for group 100: an old non-expiring charter row and a
more recent monthly row already expired at time 30. -/
def exStTwoSubs : DBState :=
  ⟨[], [], [], [⟨100, "group_charter", "active", 0, none, 4000, "c1"⟩,
                ⟨100, "group_monthly", "active", 10, some 20, 150, "c2"⟩], [], [], []⟩

/-- A corrupted invoices table holding two created rows under the same
invoice id, so the conditional update matches two rows. -/
def exStDupIds : DBState :=
  ⟨[], [], [⟨"dup", 1, .personal "personal_monthly", 50, "XTR", "created", 0, none⟩,
            ⟨"dup", 1, .personal "personal_monthly", 50, "XTR", "created", 0, none⟩],
   [], [], [], []⟩

/-- A user with two resolves and a user with none. -/
def exStUsers : DBState :=
  ⟨[⟨9, 2⟩, ⟨8, 0⟩], [], [], [], [], [], []⟩

/-- An id stream whose first value collides with the existing invoice of
exStPersonal and whose later values are fresh. -/
def exIds : Nat → String :=
  fun i => if i == 0 then "inv1" else "fresh"

/-- An id stream all of whose values collide with the existing invoice of
exStPersonal. -/
def exIdsStuck : Nat → String := fun _ => "inv1"

/-- The balance read of a users table: the resolves_remaining column of the
first row with the given user id, zero when absent. -/
def usersBalance (l : List UserRow) (uid : Int) : Int :=
  match l.find? (fun u => u.userId == uid) with
  | none => 0
  | some u => u.resolvesRemaining

/-! ## Helper lemmas -/

lemma get_personal_balance_eq_usersBalance (st : DBState) (u : Int) :
    get_personal_balance st u = usersBalance st.users u := rfl

lemma ensure_user_purchases (st : DBState) (uid : Int) :
    (ensure_user st uid).purchases = st.purchases := by
  unfold ensure_user; split <;> rfl

lemma ensure_user_invoices (st : DBState) (uid : Int) :
    (ensure_user st uid).invoices = st.invoices := by
  unfold ensure_user; split <;> rfl

lemma ensure_user_groupSubs (st : DBState) (uid : Int) :
    (ensure_user st uid).groupSubs = st.groupSubs := by
  unfold ensure_user; split <;> rfl

lemma ensure_user_ragSubs (st : DBState) (uid : Int) :
    (ensure_user st uid).ragSubs = st.ragSubs := by
  unfold ensure_user; split <;> rfl

lemma ensure_group_users (st : DBState) (gid : Int) :
    (ensure_group st gid).users = st.users := by
  unfold ensure_group; split <;> rfl

lemma ensure_group_purchases (st : DBState) (gid : Int) :
    (ensure_group st gid).purchases = st.purchases := by
  unfold ensure_group; split <;> rfl

lemma ensure_group_invoices (st : DBState) (gid : Int) :
    (ensure_group st gid).invoices = st.invoices := by
  unfold ensure_group; split <;> rfl

lemma ensure_group_groupSubs (st : DBState) (gid : Int) :
    (ensure_group st gid).groupSubs = st.groupSubs := by
  unfold ensure_group; split <;> rfl

lemma ensure_group_ragSubs (st : DBState) (gid : Int) :
    (ensure_group st gid).ragSubs = st.ragSubs := by
  unfold ensure_group; split <;> rfl

lemma usersBalance_append_zero (l : List UserRow) (uid v : Int)
    (h : l.find? (fun u => u.userId == uid) = none) :
    usersBalance (l ++ [(⟨uid, 0⟩ : UserRow)]) v = usersBalance l v := by
  unfold usersBalance
  rw [List.find?_append]
  by_cases hv : v = uid
  · subst hv
    rw [h]
    simp [List.find?]
  · have huid : ((⟨uid, 0⟩ : UserRow).userId == v) = false :=
      beq_eq_false_iff_ne.mpr (fun hc => hv (by simpa using hc.symm))
    cases hf : l.find? (fun u => u.userId == v) with
    | some x => simp [hf]
    | none => simp [hf, List.find?, huid]

lemma get_personal_balance_ensure_user (st : DBState) (uid v : Int) :
    get_personal_balance (ensure_user st uid) v = get_personal_balance st v := by
  unfold ensure_user
  split
  · rfl
  · rename_i h
    have hnone : st.users.find? (fun u => u.userId == uid) = none := by
      rw [List.find?_eq_none]
      intro x hx hpx
      exact h (List.any_eq_true.mpr ⟨x, hx, hpx⟩)
    simp only [get_personal_balance_eq_usersBalance]
    exact usersBalance_append_zero st.users uid v hnone

lemma get_group_subscription_info_congr (st1 st2 : DBState)
    (h : st1.groupSubs = st2.groupSubs) (g n : Int) :
    get_group_subscription_info st1 g n = get_group_subscription_info st2 g n := by
  unfold get_group_subscription_info latestSubRow
  rw [h]

lemma group_subscription_active_congr (st1 st2 : DBState)
    (h : st1.groupSubs = st2.groupSubs) (g n : Int) :
    group_subscription_active st1 g n = group_subscription_active st2 g n := by
  unfold group_subscription_active
  rw [h]

lemma get_group_rag_subscription_info_congr (st1 st2 : DBState)
    (h : st1.ragSubs = st2.ragSubs) (g n : Int) :
    get_group_rag_subscription_info st1 g n = get_group_rag_subscription_info st2 g n := by
  unfold get_group_rag_subscription_info latestSubRow
  rw [h]

lemma foldl_latestPick_mem (l : List SubRow) (acc : Option SubRow) (b : SubRow)
    (h : l.foldl latestPick acc = some b) : acc = some b ∨ b ∈ l := by
  induction l generalizing acc with
  | nil => exact Or.inl h
  | cons a t ih =>
    rcases ih (latestPick acc a) h with h1 | h1
    · cases acc with
      | none =>
        simp only [latestPick] at h1
        right
        simp only [Option.some.injEq] at h1
        exact h1 ▸ List.mem_cons_self a t
      | some c =>
        simp only [latestPick] at h1
        split at h1
        · right
          simp only [Option.some.injEq] at h1
          exact h1 ▸ List.mem_cons_self a t
        · exact Or.inl h1
    · exact Or.inr (List.mem_cons_of_mem a h1)

lemma latestSubRow_mem (subs : List SubRow) (gid : Int) (b : SubRow)
    (h : latestSubRow subs gid = some b) : b ∈ subs ∧ b.groupId = gid := by
  unfold latestSubRow at h
  rcases foldl_latestPick_mem _ _ _ h with h1 | h1
  · exact absurd h1 (by simp)
  · refine ⟨List.mem_of_mem_filter h1, ?_⟩
    have := List.of_mem_filter h1
    simpa using this

lemma latestSubRow_append_new (subs : List SubRow) (gid : Int) (r : SubRow)
    (hg : r.groupId = gid)
    (hlt : ∀ s ∈ subs, s.groupId = gid → s.startTs < r.startTs) :
    latestSubRow (subs ++ [r]) gid = some r := by
  unfold latestSubRow
  rw [List.filter_append]
  have hr : List.filter (fun s => s.groupId == gid) [r] = [r] := by
    simp [hg]
  rw [hr, List.foldl_append]
  simp only [List.foldl_cons, List.foldl_nil]
  cases hacc : (subs.filter (fun s => s.groupId == gid)).foldl latestPick none with
  | none => rfl
  | some b =>
    have hb : b ∈ subs.filter (fun s => s.groupId == gid) := by
      rcases foldl_latestPick_mem _ _ _ hacc with h | h
      · exact absurd h (by simp)
      · exact h
    have hbg : b.groupId = gid := by
      have := List.of_mem_filter hb
      simpa using this
    have hbs : b.startTs < r.startTs := hlt b (List.mem_of_mem_filter hb) hbg
    simp only [latestPick]
    rw [if_pos hbs]

/-! ## Claim C5 -/

/-- C5: the claim states that the group-subscription-active projection is true
iff the most-recent-by-start_ts row is live. Counterexample: in exStTwoSubs
the most recent row of group 100 is expired at time 30, yet
group_subscription_active is true because an older charter row is live, so
the projection disagrees with the most-recent-row rule at this input. -/
theorem C5_counterexample :
    group_subscription_active exStTwoSubs 100 30 = true ∧
    (get_group_subscription_info exStTwoSubs 100 30).active = false := by
  exact ⟨by decide, by decide⟩

/-- C5 amended: group_subscription_active is true iff SOME row of the group
is live (status active and unexpired), regardless of recency; the
most-recent-row rule is implemented only by the active field of
get_group_subscription_info, which implies the former but is not implied by
it. -/
theorem C5_amended (st : DBState) (gid : Int) (now : Int) :
    (group_subscription_active st gid now = true ↔
      ∃ s ∈ st.groupSubs, s.groupId = gid ∧ subRowLive now s = true) ∧
    ((get_group_subscription_info st gid now).active = true →
      group_subscription_active st gid now = true) := by
  constructor
  · unfold group_subscription_active
    rw [List.any_eq_true]
    constructor
    · rintro ⟨s, hs, hp⟩
      refine ⟨s, hs, ?_, ?_⟩
      · have := (Bool.and_eq_true _ _).mp hp
        exact beq_iff_eq.mp this.1
      · exact ((Bool.and_eq_true _ _).mp hp).2
    · rintro ⟨s, hs, hg, hl⟩
      exact ⟨s, hs, (Bool.and_eq_true _ _).mpr ⟨beq_iff_eq.mpr hg, hl⟩⟩
  · intro h
    unfold get_group_subscription_info at h
    cases hl : latestSubRow st.groupSubs gid with
    | none => rw [hl] at h; exact absurd h (by simp)
    | some b =>
      rw [hl] at h
      obtain ⟨hmem, hgid⟩ := latestSubRow_mem _ _ _ hl
      unfold group_subscription_active
      rw [List.any_eq_true]
      exact ⟨b, hmem, (Bool.and_eq_true _ _).mpr ⟨beq_iff_eq.mpr hgid, h⟩⟩

/-- C5 witness: the amended characterization evaluated on exStTwoSubs. -/
theorem C5_witness :
    group_subscription_active exStTwoSubs 100 30 = true :=
  (C5_amended exStTwoSubs 100 30).1.mpr
    ⟨⟨100, "group_charter", "active", 0, none, 4000, "c1"⟩, by decide, by decide, by decide⟩

lemma pre_checkout_state_shape (st : DBState) (payload : String) (fu : Int)
    (cur : String) (ta now : Int) :
    (pre_checkout st payload fu cur ta now).1 = st ∨
    (∃ g, (pre_checkout st payload fu cur ta now).1 = ensure_group st g) ∨
    (∃ u, (pre_checkout st payload fu cur ta now).1 = ensure_user st u) := by
  unfold pre_checkout
  rcases findInvoice st.invoices payload with _ | inv
  · exact Or.inl rfl
  · simp only
    repeat' split
    all_goals
      first
        | exact Or.inl rfl
        | exact Or.inr (Or.inl ⟨_, rfl⟩)
        | exact Or.inr (Or.inr ⟨_, rfl⟩)

lemma projections_preserved (st st2 : DBState)
    (h : st2 = st ∨ (∃ g, st2 = ensure_group st g) ∨ (∃ u, st2 = ensure_user st u)) :
    (∀ v, get_personal_balance st2 v = get_personal_balance st v) ∧
    (∀ g n, get_group_subscription_info st2 g n = get_group_subscription_info st g n) ∧
    (∀ g n, group_subscription_active st2 g n = group_subscription_active st g n) ∧
    (∀ g n, get_group_rag_subscription_info st2 g n = get_group_rag_subscription_info st g n) ∧
    st2.purchases = st.purchases ∧ st2.invoices = st.invoices ∧
    st2.groupSubs = st.groupSubs ∧ st2.ragSubs = st.ragSubs := by
  rcases h with rfl | ⟨g, rfl⟩ | ⟨u, rfl⟩
  · exact ⟨fun _ => rfl, fun _ _ => rfl, fun _ _ => rfl, fun _ _ => rfl,
      rfl, rfl, rfl, rfl⟩
  · exact ⟨fun v => by
        simp only [get_personal_balance_eq_usersBalance, ensure_group_users],
      fun g2 n => get_group_subscription_info_congr _ _ (ensure_group_groupSubs st g) g2 n,
      fun g2 n => group_subscription_active_congr _ _ (ensure_group_groupSubs st g) g2 n,
      fun g2 n => get_group_rag_subscription_info_congr _ _ (ensure_group_ragSubs st g) g2 n,
      ensure_group_purchases st g, ensure_group_invoices st g,
      ensure_group_groupSubs st g, ensure_group_ragSubs st g⟩
  · exact ⟨fun v => get_personal_balance_ensure_user st u v,
      fun g2 n => get_group_subscription_info_congr _ _ (ensure_user_groupSubs st u) g2 n,
      fun g2 n => group_subscription_active_congr _ _ (ensure_user_groupSubs st u) g2 n,
      fun g2 n => get_group_rag_subscription_info_congr _ _ (ensure_user_ragSubs st u) g2 n,
      ensure_user_purchases st u, ensure_user_invoices st u,
      ensure_user_groupSubs st u, ensure_user_ragSubs st u⟩

/-! ## Claim C3 -/

/-- C3: calling the pre_checkout handler, with any arguments and on any state,
never changes the personal balance, the group subscription projections or the
addon projection; the purchases, invoices and subscription ledgers are
untouched, and the resulting state is either unchanged or the result of one
idempotent ensure_group or ensure_user upsert. -/
theorem C3_pre_checkout_never_mutates_entitlements (st : DBState)
    (payload : String) (fu : Int) (cur : String) (ta now : Int) :
    ((pre_checkout st payload fu cur ta now).1 = st ∨
     (∃ g, (pre_checkout st payload fu cur ta now).1 = ensure_group st g) ∨
     (∃ u, (pre_checkout st payload fu cur ta now).1 = ensure_user st u)) ∧
    (∀ v, get_personal_balance (pre_checkout st payload fu cur ta now).1 v =
          get_personal_balance st v) ∧
    (∀ g n, get_group_subscription_info (pre_checkout st payload fu cur ta now).1 g n =
            get_group_subscription_info st g n) ∧
    (∀ g n, group_subscription_active (pre_checkout st payload fu cur ta now).1 g n =
            group_subscription_active st g n) ∧
    (∀ g n, get_group_rag_subscription_info (pre_checkout st payload fu cur ta now).1 g n =
            get_group_rag_subscription_info st g n) ∧
    (pre_checkout st payload fu cur ta now).1.purchases = st.purchases ∧
    (pre_checkout st payload fu cur ta now).1.invoices = st.invoices ∧
    (pre_checkout st payload fu cur ta now).1.groupSubs = st.groupSubs ∧
    (pre_checkout st payload fu cur ta now).1.ragSubs = st.ragSubs := by
  have hs := pre_checkout_state_shape st payload fu cur ta now
  have hp := projections_preserved st _ hs
  exact ⟨hs, hp.1, hp.2.1, hp.2.2.1, hp.2.2.2.1, hp.2.2.2.2.1,
    hp.2.2.2.2.2.1, hp.2.2.2.2.2.2.1, hp.2.2.2.2.2.2.2⟩

/-! ## Claim C10 -/

lemma usersBalance_cons (a : UserRow) (t : List UserRow) (v : Int) :
    usersBalance (a :: t) v =
      if a.userId == v then a.resolvesRemaining else usersBalance t v := by
  unfold usersBalance
  rw [List.find?_cons]
  cases h : a.userId == v with
  | true => simp [h]
  | false => simp [h]

lemma consume_core (uid : Int) (l : List UserRow)
    (hWF : l.Pairwise (fun a b => a.userId ≠ b.userId)) :
    (l.countP (fun u => u.userId == uid && decide (u.resolvesRemaining > 0)) =
       if 0 < usersBalance l uid then 1 else 0) ∧
    (usersBalance
       (l.map (fun u =>
         if u.userId == uid && decide (u.resolvesRemaining > 0) then
           { u with resolvesRemaining := u.resolvesRemaining - 1 }
         else u)) uid =
       if 0 < usersBalance l uid then usersBalance l uid - 1 else usersBalance l uid) ∧
    (∀ v, v ≠ uid →
       usersBalance
         (l.map (fun u =>
           if u.userId == uid && decide (u.resolvesRemaining > 0) then
             { u with resolvesRemaining := u.resolvesRemaining - 1 }
           else u)) v = usersBalance l v) := by
  induction l with
  | nil => exact ⟨by simp [usersBalance], by simp [usersBalance], fun v _ => by simp⟩
  | cons a t ih =>
    rcases List.pairwise_cons.mp hWF with ⟨ha, ht⟩
    obtain ⟨ih1, ih2, ih3⟩ := ih ht
    by_cases hau : a.userId = uid
    · have htnone : ∀ x ∈ t,
          (x.userId == uid && decide (x.resolvesRemaining > 0)) = false := by
        intro x hx
        have hne : (x.userId == uid) = false := by
          rw [beq_eq_false_iff_ne]
          intro hc
          exact (ha x hx) (hau.trans hc.symm)
        simp [hne]
      have hcount0 : t.countP
          (fun u => u.userId == uid && decide (u.resolvesRemaining > 0)) = 0 :=
        List.countP_eq_zero.mpr (fun x hx => by simp [htnone x hx])
      have hbal : usersBalance (a :: t) uid = a.resolvesRemaining := by
        rw [usersBalance_cons]
        simp [hau]
      have hmap : t.map (fun u =>
          if u.userId == uid && decide (u.resolvesRemaining > 0) then
            { u with resolvesRemaining := u.resolvesRemaining - 1 }
          else u) = t := by
        calc t.map (fun u =>
              if u.userId == uid && decide (u.resolvesRemaining > 0) then
                { u with resolvesRemaining := u.resolvesRemaining - 1 }
              else u)
            = t.map id := List.map_congr_left (fun x hx => by simp [htnone x hx])
          _ = t := List.map_id t
      refine ⟨?_, ?_, ?_⟩
      · simp only [List.countP_cons, hcount0, hbal]
        by_cases hpos : 0 < a.resolvesRemaining
        · simp [hau, hpos]
        · simp [hau, hpos]
      · simp only [List.map_cons, hmap, hbal]
        by_cases hpos : 0 < a.resolvesRemaining
        · have hfa : (if (a.userId == uid && decide (a.resolvesRemaining > 0)) = true then
              { userId := a.userId, resolvesRemaining := a.resolvesRemaining - 1 }
            else a) = { userId := a.userId, resolvesRemaining := a.resolvesRemaining - 1 } := by
            simp [hau, hpos]
          rw [hfa, usersBalance_cons]
          simp [hau, hpos]
        · have hfa : (if (a.userId == uid && decide (a.resolvesRemaining > 0)) = true then
              { userId := a.userId, resolvesRemaining := a.resolvesRemaining - 1 }
            else a) = a := by
            simp [hau, hpos]
          rw [hfa, usersBalance_cons]
          simp [hau, hpos]
      · intro v hv
        have hav : (a.userId == v) = false := by
          rw [beq_eq_false_iff_ne]
          intro hc
          exact hv (hc.symm.trans hau)
        simp only [List.map_cons, hmap]
        by_cases hpos : 0 < a.resolvesRemaining
        · have hfa : (if (a.userId == uid && decide (a.resolvesRemaining > 0)) = true then
              { userId := a.userId, resolvesRemaining := a.resolvesRemaining - 1 }
            else a) = { userId := a.userId, resolvesRemaining := a.resolvesRemaining - 1 } := by
            simp [hau, hpos]
          rw [hfa, usersBalance_cons, usersBalance_cons]
          simp [hav]
        · have hfa : (if (a.userId == uid && decide (a.resolvesRemaining > 0)) = true then
              { userId := a.userId, resolvesRemaining := a.resolvesRemaining - 1 }
            else a) = a := by
            simp [hau, hpos]
          rw [hfa]
    · have hane : (a.userId == uid) = false := beq_eq_false_iff_ne.mpr hau
      have hbal : usersBalance (a :: t) uid = usersBalance t uid := by
        rw [usersBalance_cons]
        simp [hane]
      refine ⟨?_, ?_, ?_⟩
      · simp only [List.countP_cons, hbal]
        simp [hane, ih1]
      · simp only [List.map_cons, hbal]
        have hfa : (if (a.userId == uid && decide (a.resolvesRemaining > 0)) = true then
            { userId := a.userId, resolvesRemaining := a.resolvesRemaining - 1 }
          else a) = a := by
          simp [hane]
        rw [hfa, usersBalance_cons, ih2]
        simp [hane]
      · intro v hv
        simp only [List.map_cons]
        have hfa : (if (a.userId == uid && decide (a.resolvesRemaining > 0)) = true then
            { userId := a.userId, resolvesRemaining := a.resolvesRemaining - 1 }
          else a) = a := by
          simp [hane]
        rw [hfa, usersBalance_cons, usersBalance_cons, ih3 v hv]

lemma ensure_user_pairwise (st : DBState) (uid : Int)
    (hWF : st.users.Pairwise (fun a b => a.userId ≠ b.userId)) :
    (ensure_user st uid).users.Pairwise (fun a b => a.userId ≠ b.userId) := by
  unfold ensure_user
  split
  · exact hWF
  · rename_i h
    rw [List.pairwise_append]
    refine ⟨hWF, List.pairwise_singleton _ _, ?_⟩
    intro a ha b hb
    simp only [List.mem_singleton] at hb
    subst hb
    intro hc
    exact h (List.any_eq_true.mpr ⟨a, ha, by simp [hc]⟩)

lemma ensure_user_mem (st : DBState) (uid : Int) (x : UserRow)
    (hx : x ∈ (ensure_user st uid).users) :
    x ∈ st.users ∨ x = (⟨uid, 0⟩ : UserRow) := by
  unfold ensure_user at hx
  split at hx
  · exact Or.inl hx
  · rcases List.mem_append.mp hx with h | h
    · exact Or.inl h
    · exact Or.inr (List.mem_singleton.mp h)

/-- C10: consume_paid_resolve succeeds exactly when the balance of the user
is strictly positive, in which case the balance drops by exactly one; at a
zero or negative balance it returns false and changes no balance; and it
never drives a nonnegative balance negative. The hypothesis states the
uniqueness the users primary key provides. -/
theorem C10_consume_paid_resolve (st : DBState) (uid : Int)
    (hWF : st.users.Pairwise (fun a b => a.userId ≠ b.userId)) :
    ((consume_paid_resolve st uid).2 = true ↔ 0 < get_personal_balance st uid) ∧
    (0 < get_personal_balance st uid →
       get_personal_balance (consume_paid_resolve st uid).1 uid =
         get_personal_balance st uid - 1) ∧
    (get_personal_balance st uid ≤ 0 →
       (consume_paid_resolve st uid).2 = false ∧
       ∀ v, get_personal_balance (consume_paid_resolve st uid).1 v =
              get_personal_balance st v) ∧
    ((∀ x ∈ st.users, 0 ≤ x.resolvesRemaining) →
       ∀ x ∈ (consume_paid_resolve st uid).1.users, 0 ≤ x.resolvesRemaining) := by
  have hWF1 := ensure_user_pairwise st uid hWF
  obtain ⟨hc1, hc2, hc3⟩ := consume_core uid (ensure_user st uid).users hWF1
  have hbal1 : ∀ v, usersBalance (ensure_user st uid).users v = get_personal_balance st v :=
    fun v => get_personal_balance_ensure_user st uid v
  have e2 : (consume_paid_resolve st uid).2 =
      ((ensure_user st uid).users.countP
        (fun u => u.userId == uid && decide (u.resolvesRemaining > 0)) == 1) := rfl
  have e1 : (consume_paid_resolve st uid).1.users =
      (ensure_user st uid).users.map (fun u =>
        if u.userId == uid && decide (u.resolvesRemaining > 0) then
          { u with resolvesRemaining := u.resolvesRemaining - 1 }
        else u) := rfl
  have ebal : ∀ v, get_personal_balance (consume_paid_resolve st uid).1 v =
      usersBalance ((ensure_user st uid).users.map (fun u =>
        if u.userId == uid && decide (u.resolvesRemaining > 0) then
          { u with resolvesRemaining := u.resolvesRemaining - 1 }
        else u)) v := by
    intro v
    rw [get_personal_balance_eq_usersBalance, e1]
  constructor
  · rw [e2, hc1, hbal1 uid]
    by_cases hpos : 0 < get_personal_balance st uid
    · simp [hpos]
    · simp [hpos]
  constructor
  · intro hpos
    rw [ebal uid, hc2, hbal1 uid, if_pos hpos]
  constructor
  · intro hle
    have hneg : ¬ 0 < usersBalance (ensure_user st uid).users uid := by
      rw [hbal1 uid]
      omega
    constructor
    · rw [e2, hc1, if_neg hneg]
      simp
    · intro v
      by_cases hv : v = uid
      · subst hv
        rw [ebal v, hc2, if_neg hneg, hbal1 v]
      · rw [ebal v, hc3 v hv, hbal1 v]
  · intro hnn x hx
    rw [e1] at hx
    rcases List.mem_map.mp hx with ⟨y, hy, rfl⟩
    have hy2 : 0 ≤ y.resolvesRemaining := by
      rcases ensure_user_mem st uid y hy with h | h
      · exact hnn y h
      · rw [h]
    by_cases hp : (y.userId == uid && decide (y.resolvesRemaining > 0)) = true
    · rw [if_pos hp]
      have hypos : 0 < y.resolvesRemaining :=
        of_decide_eq_true ((Bool.and_eq_true _ _).mp hp).2
      simp only
      omega
    · rw [if_neg hp]
      exact hy2

/-- C10 witness: the consumption contract evaluated on exStUsers, where user
9 holds two resolves. -/
theorem C10_witness :
    (consume_paid_resolve exStUsers 9).2 = true ∧
    get_personal_balance (consume_paid_resolve exStUsers 9).1 9 = 1 := by
  have h := C10_consume_paid_resolve exStUsers 9 (by decide)
  refine ⟨h.1.mpr (by decide), ?_⟩
  rw [h.2.1 (by decide)]
  decide

/-! ## Claim C9 -/

/-- C9: invoice issuance draws candidate identifiers from the id stream
alone, so its outcome is unchanged under any payer or plan arguments; it
fails (None) exactly when the first three stream ids all collide with
existing invoice ids, leaving the store untouched; on success the returned
id is one of the first three stream ids, was fresh, and the only change is
one appended created invoice row, so no existing row is ever overwritten. -/
theorem C9_create_invoice_record (st : DBState) (ids : Nat → String) (uid : Int)
    (pk : PlanKey) (amount : Int) (currency : String) (now : Int) :
    (∀ uid2 pk2 amount2 currency2 now2,
       (create_invoice_record st ids uid pk amount currency now).2 =
       (create_invoice_record st ids uid2 pk2 amount2 currency2 now2).2) ∧
    ((create_invoice_record st ids uid pk amount currency now).2 = none ↔
       hasInvoiceId st.invoices (ids 0) = true ∧
       hasInvoiceId st.invoices (ids 1) = true ∧
       hasInvoiceId st.invoices (ids 2) = true) ∧
    ((create_invoice_record st ids uid pk amount currency now).2 = none →
       (create_invoice_record st ids uid pk amount currency now).1 = st) ∧
    (∀ nid, (create_invoice_record st ids uid pk amount currency now).2 = some nid →
       (nid = ids 0 ∨ nid = ids 1 ∨ nid = ids 2) ∧
       hasInvoiceId st.invoices nid = false ∧
       (create_invoice_record st ids uid pk amount currency now).1.invoices =
         st.invoices ++ [(⟨nid, uid, pk, amount, currency, "created", now, none⟩ : Invoice)]) ∧
    (∀ x ∈ st.invoices, x ∈ (create_invoice_record st ids uid pk amount currency now).1.invoices) := by
  by_cases h0 : hasInvoiceId st.invoices (ids 0) = true
  · by_cases h1 : hasInvoiceId st.invoices (ids (0 + 1)) = true
    · by_cases h2 : hasInvoiceId st.invoices (ids (0 + 1 + 1)) = true
      · refine ⟨?_, ?_, ?_, ?_, ?_⟩ <;>
          simp [create_invoice_record, create_invoice_attempts, create_invoice,
            h0, h1, h2]
      · refine ⟨?_, ?_, ?_, ?_, ?_⟩ <;>
          simp [create_invoice_record, create_invoice_attempts, create_invoice,
            h0, h1, h2] <;>
          simp_all [hasInvoiceId]
    · refine ⟨?_, ?_, ?_, ?_, ?_⟩ <;>
        simp [create_invoice_record, create_invoice_attempts, create_invoice,
          h0, h1] <;>
        simp_all [hasInvoiceId]
  · refine ⟨?_, ?_, ?_, ?_, ?_⟩ <;>
      simp [create_invoice_record, create_invoice_attempts, create_invoice, h0] <;>
      simp_all [hasInvoiceId]

/-- C9 witness: the issuance contract evaluated on exStPersonal, once with a
fully colliding id stream and once with a stream whose second id is fresh. -/
theorem C9_witness :
    (create_invoice_record exStPersonal exIdsStuck 1 (.personal "p") 5 "XTR" 7).2 = none ∧
    (create_invoice_record exStPersonal exIds 1 (.personal "p") 5 "XTR" 7).1.invoices =
      exStPersonal.invoices ++
        [(⟨"fresh", 1, .personal "p", 5, "XTR", "created", 7, none⟩ : Invoice)] := by
  have h := C9_create_invoice_record exStPersonal exIdsStuck 1 (.personal "p") 5 "XTR" 7
  have h2 := C9_create_invoice_record exStPersonal exIds 1 (.personal "p") 5 "XTR" 7
  exact ⟨h.2.1.mpr ⟨by decide, by decide, by decide⟩,
    (h2.2.2.2.1 "fresh" (by decide)).2.2⟩

/-! ## Characterization of the confirmation reconcilers -/

lemma process_personal_processed (st : DBState) (iid cid : String) (uid : Int)
    (stars res : Int) (st1 : DBState)
    (h : process_invoice_payment st iid cid uid stars res = (st1, "processed")) :
    (cid == "") = false ∧
    hasInvoiceCharge st.invoices cid = false ∧
    hasPurchaseCharge st.purchases cid = false ∧
    updateRowcount st.invoices iid = 1 ∧
    st1.invoices = st.invoices.map (markPaid iid cid) ∧
    st1.purchases = st.purchases ++ [(⟨uid, stars, res, cid⟩ : PurchaseRow)] ∧
    st1.groupSubs = st.groupSubs ∧
    st1.ragSubs = st.ragSubs ∧
    st1.users = addResolvesUpdate
      (ensure_user { st with invoices := st.invoices.map (markPaid iid cid) } uid).users
      uid res := by
  simp only [process_invoice_payment, conditionalPaidUpdate] at h
  split at h
  next => simp at h
  next hcid =>
    split at h
    next => simp at h
    next hic =>
      split at h
      next => simp at h
      next hpc =>
        split at h
        next => simp at h
        next row hrow =>
          split at h
          next => simp at h
          next hstat =>
            split at h
            next => simp at h
            next hrc =>
              split at h
              next => simp at h
              next hlate =>
                have hrc1 : updateRowcount st.invoices iid = 1 := by
                  simpa using hrc
                obtain ⟨hst, -⟩ := Prod.mk.injEq .. ▸ h
                refine ⟨by simpa using hcid, by simpa using hic, by simpa using hpc,
                  hrc1, ?_, ?_, ?_, ?_, ?_⟩ <;>
                  rw [← hst] <;>
                  simp [ensure_user_purchases, ensure_user_invoices,
                    ensure_user_groupSubs, ensure_user_ragSubs]

lemma hasInvoiceCharge_after_update (invs : List Invoice) (iid cid : String)
    (h : 0 < updateRowcount invs iid) :
    hasInvoiceCharge (invs.map (markPaid iid cid)) cid = true := by
  obtain ⟨r, hr, hp⟩ := List.countP_pos.mp h
  unfold hasInvoiceCharge
  rw [List.any_eq_true]
  refine ⟨markPaid iid cid r, List.mem_map_of_mem _ hr, ?_⟩
  unfold markPaid
  rw [if_pos hp]
  simp

lemma ensure_user_present (st : DBState) (uid : Int) :
    ((ensure_user st uid).users.find? (fun u => u.userId == uid)).isSome := by
  unfold ensure_user
  split
  next h =>
    obtain ⟨x, hx, hp⟩ := List.any_eq_true.mp h
    rw [List.find?_isSome]
    exact ⟨x, hx, hp⟩
  next h =>
    rw [List.find?_isSome]
    exact ⟨⟨uid, 0⟩, List.mem_append_right _ (List.mem_singleton.mpr rfl), by simp⟩

lemma find?_addResolvesUpdate (l : List UserRow) (uid delta : Int) :
    (addResolvesUpdate l uid delta).find? (fun u => u.userId == uid) =
      (l.find? (fun u => u.userId == uid)).map
        (fun u => { u with resolvesRemaining := u.resolvesRemaining + delta }) := by
  induction l with
  | nil => rfl
  | cons a t ih =>
    by_cases hau : (a.userId == uid) = true
    · have hau2 : a.userId = uid := by simpa using hau
      have hstep : addResolvesUpdate (a :: t) uid delta =
          { userId := a.userId, resolvesRemaining := a.resolvesRemaining + delta } ::
            addResolvesUpdate t uid delta := by
        simp [addResolvesUpdate, hau2]
      rw [hstep,
        List.find?_cons_of_pos (p := fun (u : UserRow) => u.userId == uid) _ (by simpa using hau),
        List.find?_cons_of_pos (p := fun (u : UserRow) => u.userId == uid) _ hau]
      rfl
    · have hau2 : ¬ a.userId = uid := by simpa using hau
      have hstep : addResolvesUpdate (a :: t) uid delta =
          a :: addResolvesUpdate t uid delta := by
        simp [addResolvesUpdate, hau2]
      rw [hstep,
        List.find?_cons_of_neg (p := fun (u : UserRow) => u.userId == uid) _ (by simpa using hau),
        List.find?_cons_of_neg (p := fun (u : UserRow) => u.userId == uid) _ hau]
      exact ih

lemma usersBalance_add_of_present (l : List UserRow) (uid delta : Int)
    (h : (l.find? (fun u => u.userId == uid)).isSome) :
    usersBalance (addResolvesUpdate l uid delta) uid = usersBalance l uid + delta := by
  unfold usersBalance
  rw [find?_addResolvesUpdate]
  cases hf : l.find? (fun u => u.userId == uid) with
  | none => rw [hf] at h; simp at h
  | some u0 => simp

lemma process_personal_again_duplicate (st : DBState) (iid cid : String)
    (uid : Int) (stars res : Int) (st1 : DBState)
    (h : process_invoice_payment st iid cid uid stars res = (st1, "processed")) :
    process_invoice_payment st1 iid cid uid stars res = (st1, "duplicate") := by
  obtain ⟨hcid, hic, hpc, hrc, hinv, hpur, hgs, hrs, hus⟩ :=
    process_personal_processed st iid cid uid stars res st1 h
  have hcharge : hasInvoiceCharge st1.invoices cid = true := by
    rw [hinv]
    exact hasInvoiceCharge_after_update _ _ _ (by omega)
  simp [process_invoice_payment, hcid, hcharge]

lemma process_personal_duplicate_no_change (st : DBState) (iid cid : String)
    (uid : Int) (stars res : Int) (st1 : DBState)
    (h : process_invoice_payment st iid cid uid stars res = (st1, "duplicate")) :
    st1 = st := by
  simp only [process_invoice_payment, conditionalPaidUpdate] at h
  split at h
  next => simp at h
  next hcid =>
    split at h
    next => exact (Prod.mk.injEq .. ▸ h).1.symm
    next hic =>
      split at h
      next => exact (Prod.mk.injEq .. ▸ h).1.symm
      next hpc =>
        split at h
        next => simp at h
        next row hrow =>
          split at h
          next => simp at h
          next hstat =>
            split at h
            next => simp at h
            next hrc =>
              split at h
              next hlate =>
                rw [ensure_user_purchases] at hlate
                simp only at hlate
                exact absurd hlate (by simp [hpc])
              next hlate => simp at h

lemma process_group_processed (st : DBState) (iid cid : String) (gid : Int)
    (planId : String) (stars startTs : Int) (endTs : Option Int) (st1 : DBState)
    (h : process_group_invoice_payment st iid cid gid planId stars startTs endTs =
      (st1, "processed")) :
    (cid == "") = false ∧
    hasInvoiceCharge st.invoices cid = false ∧
    hasSubCharge st.groupSubs cid = false ∧
    updateRowcount st.invoices iid = 1 ∧
    st1.invoices = st.invoices.map (markPaid iid cid) ∧
    st1.groupSubs = st.groupSubs ++
      [(⟨gid, planId, "active", startTs, endTs, stars, cid⟩ : SubRow)] ∧
    st1.purchases = st.purchases ∧
    st1.ragSubs = st.ragSubs ∧
    st1.users = st.users := by
  simp only [process_group_invoice_payment, conditionalPaidUpdate] at h
  split at h
  next => simp at h
  next hcid =>
    split at h
    next => simp at h
    next hic =>
      split at h
      next => simp at h
      next hsc =>
        split at h
        next => simp at h
        next row hrow =>
          split at h
          next => simp at h
          next hstat =>
            split at h
            next => simp at h
            next hrc =>
              have hrc1 : updateRowcount st.invoices iid = 1 := by
                simpa using hrc
              obtain ⟨hst, -⟩ := Prod.mk.injEq .. ▸ h
              refine ⟨by simpa using hcid, by simpa using hic, by simpa using hsc,
                hrc1, ?_, ?_, ?_, ?_, ?_⟩ <;>
                rw [← hst] <;> simp

lemma process_group_again_duplicate (st : DBState) (iid cid : String)
    (gid : Int) (planId : String) (stars startTs : Int) (endTs : Option Int)
    (st1 : DBState)
    (h : process_group_invoice_payment st iid cid gid planId stars startTs endTs =
      (st1, "processed")) :
    process_group_invoice_payment st1 iid cid gid planId stars startTs endTs =
      (st1, "duplicate") := by
  obtain ⟨hcid, hic, hsc, hrc, hinv, hgs, hpur, hrs, hus⟩ :=
    process_group_processed st iid cid gid planId stars startTs endTs st1 h
  have hcharge : hasInvoiceCharge st1.invoices cid = true := by
    rw [hinv]
    exact hasInvoiceCharge_after_update _ _ _ (by omega)
  simp [process_group_invoice_payment, hcid, hcharge]

lemma process_group_duplicate_no_change (st : DBState) (iid cid : String)
    (gid : Int) (planId : String) (stars startTs : Int) (endTs : Option Int)
    (st1 : DBState)
    (h : process_group_invoice_payment st iid cid gid planId stars startTs endTs =
      (st1, "duplicate")) :
    st1 = st := by
  simp only [process_group_invoice_payment, conditionalPaidUpdate] at h
  split at h
  next => simp at h
  next hcid =>
    split at h
    next => exact (Prod.mk.injEq .. ▸ h).1.symm
    next hic =>
      split at h
      next => exact (Prod.mk.injEq .. ▸ h).1.symm
      next hsc =>
        split at h
        next => simp at h
        next row hrow =>
          split at h
          next => simp at h
          next hstat =>
            split at h
            next => simp at h
            next hrc => simp at h

lemma confirm_personal_iter_dup (iid cid : String) (uid : Int)
    (stars res : Int) (st1 : DBState)
    (h : process_invoice_payment st1 iid cid uid stars res = (st1, "duplicate")) :
    ∀ N, confirm_personal_iter iid cid uid stars res N st1 =
      (List.replicate N "duplicate", st1) := by
  intro N
  induction N with
  | zero => rfl
  | succ n ih => simp [confirm_personal_iter, h, ih, List.replicate_succ]

lemma confirm_group_iter_dup (iid cid : String) (gid : Int) (planId : String)
    (stars startTs : Int) (endTs : Option Int) (st1 : DBState)
    (h : process_group_invoice_payment st1 iid cid gid planId stars startTs endTs =
      (st1, "duplicate")) :
    ∀ N, confirm_group_iter iid cid gid planId stars startTs endTs N st1 =
      (List.replicate N "duplicate", st1) := by
  intro N
  induction N with
  | zero => rfl
  | succ n ih => simp [confirm_group_iter, h, ih, List.replicate_succ]

/-! ## Claim C1 -/

/-- C1: repeated confirmation with identical arguments is idempotent. A call
of the personal or group reconciler that returns processed implies that every
further identical call returns duplicate with the state exactly unchanged, so
N calls yield one processed and N minus one duplicates; the entitlement
effect (the purchase row and the balance increment, or the subscription row)
is applied exactly once; and a processed outcome certifies that the charge-id
lookups against the invoices table and the relevant ledger ran on the
unmutated state (they were false there), while a duplicate outcome leaves the
state untouched, the lookups having fired before any mutation. -/
theorem C1_confirm_exactly_once :
    (∀ st iid cid uid stars res st1,
       process_invoice_payment st iid cid uid stars res = (st1, "processed") →
       (∀ N, confirm_personal_iter iid cid uid stars res (N + 1) st =
          ("processed" :: List.replicate N "duplicate", st1)) ∧
       get_personal_balance st1 uid = get_personal_balance st uid + res ∧
       st1.purchases = st.purchases ++ [(⟨uid, stars, res, cid⟩ : PurchaseRow)] ∧
       hasInvoiceCharge st.invoices cid = false ∧
       hasPurchaseCharge st.purchases cid = false) ∧
    (∀ st iid cid uid stars res st1,
       process_invoice_payment st iid cid uid stars res = (st1, "duplicate") →
       st1 = st) ∧
    (∀ st iid cid gid planId stars startTs endTs st1,
       process_group_invoice_payment st iid cid gid planId stars startTs endTs =
         (st1, "processed") →
       (∀ N, confirm_group_iter iid cid gid planId stars startTs endTs (N + 1) st =
          ("processed" :: List.replicate N "duplicate", st1)) ∧
       st1.groupSubs = st.groupSubs ++
         [(⟨gid, planId, "active", startTs, endTs, stars, cid⟩ : SubRow)] ∧
       hasInvoiceCharge st.invoices cid = false ∧
       hasSubCharge st.groupSubs cid = false) ∧
    (∀ st iid cid gid planId stars startTs endTs st1,
       process_group_invoice_payment st iid cid gid planId stars startTs endTs =
         (st1, "duplicate") →
       st1 = st) := by
  refine ⟨?_, ?_, ?_, ?_⟩
  · intro st iid cid uid stars res st1 h
    obtain ⟨hcid, hic, hpc, hrc, hinv, hpur, hgs, hrs, hus⟩ :=
      process_personal_processed st iid cid uid stars res st1 h
    have hdup := process_personal_again_duplicate st iid cid uid stars res st1 h
    refine ⟨?_, ?_, hpur, hic, hpc⟩
    · intro N
      have hiter := confirm_personal_iter_dup iid cid uid stars res st1 hdup N
      simp [confirm_personal_iter, h, hiter]
    · have hpres := ensure_user_present
        { st with invoices := st.invoices.map (markPaid iid cid) } uid
      rw [get_personal_balance_eq_usersBalance, hus,
        usersBalance_add_of_present _ _ _ hpres]
      have hub : usersBalance
          (ensure_user { st with invoices := st.invoices.map (markPaid iid cid) } uid).users uid =
          get_personal_balance st uid :=
        get_personal_balance_ensure_user
          { st with invoices := st.invoices.map (markPaid iid cid) } uid uid
      rw [hub]
  · intro st iid cid uid stars res st1 h
    exact process_personal_duplicate_no_change st iid cid uid stars res st1 h
  · intro st iid cid gid planId stars startTs endTs st1 h
    obtain ⟨hcid, hic, hsc, hrc, hinv, hgsub, hpur, hrs, hus⟩ :=
      process_group_processed st iid cid gid planId stars startTs endTs st1 h
    have hdup := process_group_again_duplicate st iid cid gid planId stars startTs endTs st1 h
    refine ⟨?_, hgsub, hic, hsc⟩
    intro N
    have hiter := confirm_group_iter_dup iid cid gid planId stars startTs endTs st1 hdup N
    simp [confirm_group_iter, h, hiter]
  · intro st iid cid gid planId stars startTs endTs st1 h
    exact process_group_duplicate_no_change st iid cid gid planId stars startTs endTs st1 h

/-- C1 witness: three personal confirmations of the invoice of exStPersonal
yield one processed and two duplicates with the balance up by one, and two
group confirmations of the invoice of exStGroup yield one processed and one
duplicate. -/
theorem C1_witness :
    confirm_personal_iter "inv1" "chg-1" 42 50 1 (2 + 1) exStPersonal =
      ("processed" :: List.replicate 2 "duplicate",
        (process_invoice_payment exStPersonal "inv1" "chg-1" 42 50 1).1) ∧
    get_personal_balance (process_invoice_payment exStPersonal "inv1" "chg-1" 42 50 1).1 42 =
      get_personal_balance exStPersonal 42 + 1 ∧
    confirm_group_iter "gv1" "cg-1" 100 "group_monthly" 150 1005 (some 2593005) (1 + 1) exStGroup =
      ("processed" :: List.replicate 1 "duplicate",
        (process_group_invoice_payment exStGroup "gv1" "cg-1" 100 "group_monthly"
          150 1005 (some 2593005)).1) := by
  have hp := C1_confirm_exactly_once.1 exStPersonal "inv1" "chg-1" 42 50 1
    (process_invoice_payment exStPersonal "inv1" "chg-1" 42 50 1).1 (by decide)
  have hg := C1_confirm_exactly_once.2.2.1 exStGroup "gv1" "cg-1" 100 "group_monthly"
    150 1005 (some 2593005)
    (process_group_invoice_payment exStGroup "gv1" "cg-1" 100 "group_monthly"
      150 1005 (some 2593005)).1 (by decide)
  exact ⟨hp.1 2, hp.2.1, hg.1 1⟩

/-! ## Claim C4 -/

lemma process_personal_invoices_shape (st : DBState) (iid cid : String)
    (uid : Int) (stars res : Int) :
    (process_invoice_payment st iid cid uid stars res).1.invoices = st.invoices ∨
    (process_invoice_payment st iid cid uid stars res).1.invoices =
      st.invoices.map (markPaid iid cid) := by
  simp only [process_invoice_payment, conditionalPaidUpdate]
  repeat' split
  all_goals
    first
      | exact Or.inl rfl
      | (right; simp [ensure_user_invoices])

lemma process_group_invoices_shape (st : DBState) (iid cid : String)
    (gid : Int) (planId : String) (stars startTs : Int) (endTs : Option Int) :
    (process_group_invoice_payment st iid cid gid planId stars startTs endTs).1.invoices =
      st.invoices ∨
    (process_group_invoice_payment st iid cid gid planId stars startTs endTs).1.invoices =
      st.invoices.map (markPaid iid cid) := by
  simp only [process_group_invoice_payment, conditionalPaidUpdate]
  repeat' split
  all_goals
    first
      | exact Or.inl rfl
      | (right; simp)

/-- C4: the invoice status machine. Each row of the invoices table is either
untouched by a confirmation or rewritten by the conditional update markPaid,
which only turns a created row of the targeted invoice id into a paid row
carrying the charge id; a paid row survives every confirmation unchanged (so
the created-to-paid transition happens at most once per row); a conditional
update whose rowcount is zero changes no row at all; and when the update is
reached but affects a number of rows other than one, both reconcilers answer
invalid and mutate nothing beyond that update. -/
theorem C4_status_created_to_paid_once :
    (∀ iid cid r, markPaid iid cid r = r ∨
       (r.status = "created" ∧ r.invoiceId = iid ∧
        markPaid iid cid r = { r with status := "paid", telegramChargeId := some cid })) ∧
    (∀ invs iid cid, updateRowcount invs iid = 0 →
       invs.map (markPaid iid cid) = invs) ∧
    (∀ st iid cid uid stars res,
       (process_invoice_payment st iid cid uid stars res).1.invoices = st.invoices ∨
       (process_invoice_payment st iid cid uid stars res).1.invoices =
         st.invoices.map (markPaid iid cid)) ∧
    (∀ st iid cid uid stars res x, x ∈ st.invoices → x.status = "paid" →
       x ∈ (process_invoice_payment st iid cid uid stars res).1.invoices) ∧
    (∀ st iid cid uid stars res row,
       (cid == "") = false →
       hasInvoiceCharge st.invoices cid = false →
       hasPurchaseCharge st.purchases cid = false →
       findInvoice st.invoices iid = some row →
       row.status = "created" →
       updateRowcount st.invoices iid ≠ 1 →
       process_invoice_payment st iid cid uid stars res =
         ({ st with invoices := st.invoices.map (markPaid iid cid) }, "invalid")) ∧
    (∀ st iid cid gid planId stars startTs endTs,
       (process_group_invoice_payment st iid cid gid planId stars startTs endTs).1.invoices =
         st.invoices ∨
       (process_group_invoice_payment st iid cid gid planId stars startTs endTs).1.invoices =
         st.invoices.map (markPaid iid cid)) ∧
    (∀ st iid cid gid planId stars startTs endTs x, x ∈ st.invoices → x.status = "paid" →
       x ∈ (process_group_invoice_payment st iid cid gid planId stars startTs endTs).1.invoices) ∧
    (∀ st iid cid gid planId stars startTs endTs row,
       (cid == "") = false →
       hasInvoiceCharge st.invoices cid = false →
       hasSubCharge st.groupSubs cid = false →
       findInvoice st.invoices iid = some row →
       row.status = "created" →
       updateRowcount st.invoices iid ≠ 1 →
       process_group_invoice_payment st iid cid gid planId stars startTs endTs =
         ({ st with invoices := st.invoices.map (markPaid iid cid) }, "invalid")) := by
  have hmark : ∀ (iid cid : String) (x : Invoice), x.status = "paid" →
      markPaid iid cid x = x := by
    intro iid cid x hx
    unfold markPaid
    rw [if_neg (by simp [hx])]
  refine ⟨?_, ?_, ?_, ?_, ?_, ?_, ?_, ?_⟩
  · intro iid cid r
    by_cases hc : (r.invoiceId == iid && r.status == "created") = true
    · right
      have h1 := (Bool.and_eq_true _ _).mp hc
      exact ⟨beq_iff_eq.mp h1.2, beq_iff_eq.mp h1.1, by unfold markPaid; rw [if_pos hc]⟩
    · left
      unfold markPaid
      rw [if_neg hc]
  · intro invs iid cid h
    have hall := List.countP_eq_zero.mp h
    calc invs.map (markPaid iid cid)
        = invs.map id := List.map_congr_left (fun x hx => by
            unfold markPaid
            rw [if_neg (by simpa using hall x hx)]
            rfl)
      _ = invs := List.map_id invs
  · intro st iid cid uid stars res
    exact process_personal_invoices_shape st iid cid uid stars res
  · intro st iid cid uid stars res x hx hpaid
    rcases process_personal_invoices_shape st iid cid uid stars res with h | h
    · rw [h]; exact hx
    · rw [h]
      exact hmark iid cid x hpaid ▸ List.mem_map_of_mem _ hx
  · intro st iid cid uid stars res row hcid hic hpc hfind hstat hrc
    simp only [process_invoice_payment, conditionalPaidUpdate, hfind]
    rw [if_neg (by simp [hcid]), if_neg (by simp [hic]), if_neg (by simp [hpc]),
      if_neg (by simp [hstat]), if_pos (by simpa using hrc)]
  · intro st iid cid gid planId stars startTs endTs
    exact process_group_invoices_shape st iid cid gid planId stars startTs endTs
  · intro st iid cid gid planId stars startTs endTs x hx hpaid
    rcases process_group_invoices_shape st iid cid gid planId stars startTs endTs with h | h
    · rw [h]; exact hx
    · rw [h]
      exact hmark iid cid x hpaid ▸ List.mem_map_of_mem _ hx
  · intro st iid cid gid planId stars startTs endTs row hcid hic hsc hfind hstat hrc
    simp only [process_group_invoice_payment, conditionalPaidUpdate, hfind]
    rw [if_neg (by simp [hcid]), if_neg (by simp [hic]), if_neg (by simp [hsc]),
      if_neg (by simp [hstat]), if_pos (by simpa using hrc)]

/-- C4 witness: on the corrupted table exStDupIds the conditional update
matches two rows, so the personal reconciler answers invalid after the update
and the group reconciler does the same. -/
theorem C4_witness :
    process_invoice_payment exStDupIds "dup" "x" 1 50 1 =
      ({ exStDupIds with
          invoices := exStDupIds.invoices.map (markPaid "dup" "x") }, "invalid") ∧
    updateRowcount exStDupIds.invoices "dup" = 2 := by
  refine ⟨?_, by decide⟩
  exact C4_status_created_to_paid_once.2.2.2.2.1 exStDupIds "dup" "x" 1 50 1
    ⟨"dup", 1, .personal "personal_monthly", 50, "XTR", "created", 0, none⟩
    (by decide) (by decide) (by decide) (by decide) (by decide) (by decide)

/-! ## Claim C2 -/

/-- C2 counterexample: the claim says Confirm re-runs the currency check of
pre-authorization. On exStPersonal the invoice currency is XTR, yet a
confirmation claiming currency USD with total 5000 (which the minor-unit
conversion turns into the expected 50) is processed and credits the balance,
while pre-authorization with the same claimed currency rejects; so the
currency-equality check is not re-run at confirmation and the mismatch does
not yield Invalid. -/
theorem C2_counterexample :
    (successful_payment exStPersonal "inv1" 42 5000 "USD" "chg-1" 1005).2 =
      PayOutcome.processed ∧
    "USD" ≠ (⟨"inv1", 42, .personal "personal_monthly", 50, "XTR", "created",
      1000, none⟩ : Invoice).currency ∧
    findInvoice exStPersonal.invoices "inv1" =
      some ⟨"inv1", 42, .personal "personal_monthly", 50, "XTR", "created", 1000, none⟩ ∧
    get_personal_balance
      (successful_payment exStPersonal "inv1" 42 5000 "USD" "chg-1" 1005).1 42 = 1 ∧
    (pre_checkout exStPersonal "inv1" 42 "USD" 5000 1005).2 = false := by
  exact ⟨by decide, by decide, by decide, by decide, by decide⟩

/-- C2 amended: for a Confirm call on an existing invoice still in status
created, the payer check, the TTL check and the amount check (the paid total
converted by the minor-unit rule of the paid currency) are re-run, each
failure yielding the verification-failed outcome with the state unchanged;
the currency-equality check itself is not re-run by Confirm (currency enters
only through the conversion); and an invoice with createdAt equal to
now minus TTL minus one is rejected by both the pre-checkout and the
confirmation handler. -/
theorem C2_confirm_rechecks (st : DBState) (payload : String) (fu ta : Int)
    (cur cid : String) (now : Int) (inv : Invoice)
    (hfind : findInvoice st.invoices payload = some inv)
    (hstatus : inv.status = "created") :
    (inv.userId ≠ fu →
       successful_payment st payload fu ta cur cid now =
         (st, PayOutcome.verificationFailed)) ∧
    (INVOICE_TTL_SECONDS < now - inv.createdAt →
       successful_payment st payload fu ta cur cid now =
         (st, PayOutcome.verificationFailed) ∧
       pre_checkout st payload fu cur ta now = (st, false)) ∧
    (inv.userId = fu → now - inv.createdAt ≤ INVOICE_TTL_SECONDS →
       amount_from_total ta cur ≠ inv.amount →
       successful_payment st payload fu ta cur cid now =
         (st, PayOutcome.verificationFailed)) ∧
    (inv.createdAt = now - INVOICE_TTL_SECONDS - 1 →
       successful_payment st payload fu ta cur cid now =
         (st, PayOutcome.verificationFailed) ∧
       pre_checkout st payload fu cur ta now = (st, false)) := by
  have h2 : INVOICE_TTL_SECONDS < now - inv.createdAt →
      successful_payment st payload fu ta cur cid now =
        (st, PayOutcome.verificationFailed) ∧
      pre_checkout st payload fu cur ta now = (st, false) := by
    intro httl
    constructor
    · simp only [successful_payment, hfind]
      by_cases hu : (inv.userId != fu) = true
      · rw [if_pos hu]
      · rw [if_neg hu, if_neg (by simp [hstatus]), if_pos httl]
    · simp only [pre_checkout, hfind]
      rw [if_neg (by simp [hstatus])]
      by_cases hu : (inv.userId != fu) = true
      · rw [if_pos hu]
      · rw [if_neg hu, if_pos httl]
  refine ⟨?_, h2, ?_, ?_⟩
  · intro hne
    simp only [successful_payment, hfind]
    rw [if_pos (by simpa using hne)]
  · intro hu httl hamt
    simp only [successful_payment, hfind]
    rw [if_neg (by simp [hu]), if_neg (by simp [hstatus]),
      if_neg (by omega), if_pos (by simpa using hamt)]
  · intro hC
    have hT : INVOICE_TTL_SECONDS = (86400 : Int) := rfl
    exact h2 (by omega)

/-- C2 witness: the amended contract evaluated on exStPersonal at the instant
now = createdAt + TTL + 1, where both handlers reject without mutation. -/
theorem C2_witness :
    successful_payment exStPersonal "inv1" 42 50 "XTR" "chg-1" 87401 =
      (exStPersonal, PayOutcome.verificationFailed) ∧
    pre_checkout exStPersonal "inv1" 42 "XTR" 50 87401 = (exStPersonal, false) := by
  have h := C2_confirm_rechecks exStPersonal "inv1" 42 50 "XTR" "chg-1" 87401
    ⟨"inv1", 42, .personal "personal_monthly", 50, "XTR", "created", 1000, none⟩
    (by decide) (by decide)
  exact h.2.2.2 (by decide)

/-! ## Claim C7 -/

/-- C7: on an Addon-category invoice whose group has no live base
subscription at this instant, the pre-checkout handler rejects with no state
change whatever the claimed payer, currency and amount are, and the
confirmation handler, as long as the invoice is still in status created,
leaves the state unchanged and answers one of the two error replies the spec
folds into the Invalid outcome, so no entitlement effect is applied. -/
theorem C7_addon_requires_active_base (st : DBState) (payload : String)
    (inv : Invoice) (pid : String) (gid : Int) (now : Int)
    (hfind : findInvoice st.invoices payload = some inv)
    (hplan : inv.planId = .rag pid gid)
    (hbase : group_subscription_active st gid now = false) :
    (∀ fu cur ta, pre_checkout st payload fu cur ta now = (st, false)) ∧
    (inv.status = "created" →
       ∀ fu ta cur cid,
         successful_payment st payload fu ta cur cid now =
           (st, PayOutcome.verificationFailed) ∨
         successful_payment st payload fu ta cur cid now =
           (st, PayOutcome.processingError)) := by
  constructor
  · intro fu cur ta
    simp only [pre_checkout, hfind, hplan, parse_group_plan_key, parse_rag_plan_key]
    repeat' split
    all_goals simp_all
  · intro hstatus fu ta cur cid
    simp only [successful_payment, hfind, hplan, parse_group_plan_key, parse_rag_plan_key]
    repeat' split
    all_goals simp_all

/-- C7 witness: the addon gate evaluated on exStRagNoBase, whose rag invoice
references group 100 with an empty subscription ledger. -/
theorem C7_witness :
    pre_checkout exStRagNoBase "rv1" 7 "XTR" 50 1005 = (exStRagNoBase, false) ∧
    (successful_payment exStRagNoBase "rv1" 7 50 "XTR" "cr-1" 1005 =
       (exStRagNoBase, PayOutcome.verificationFailed) ∨
     successful_payment exStRagNoBase "rv1" 7 50 "XTR" "cr-1" 1005 =
       (exStRagNoBase, PayOutcome.processingError)) := by
  have h := C7_addon_requires_active_base exStRagNoBase "rv1"
    ⟨"rv1", 7, .rag "rag_monthly" 100, 50, "XTR", "created", 1000, none⟩
    "rag_monthly" 100 1005 (by decide) rfl (by decide)
  exact ⟨h.1 7 "XTR" 50, h.2 rfl 7 50 "XTR" "cr-1"⟩

/-! ## Claims C8 and C6: window computation -/

lemma process_group_processed_intro (st : DBState) (iid cid : String)
    (gid : Int) (planId : String) (stars startTs : Int) (endTs : Option Int)
    (hcid : (cid == "") = false)
    (hic : hasInvoiceCharge st.invoices cid = false)
    (hsc : hasSubCharge st.groupSubs cid = false)
    (row : Invoice) (hfind : findInvoice st.invoices iid = some row)
    (hstat : row.status = "created")
    (hrc : updateRowcount st.invoices iid = 1) :
    process_group_invoice_payment st iid cid gid planId stars startTs endTs =
      ({ st with invoices := st.invoices.map (markPaid iid cid),
                 groupSubs := st.groupSubs ++
                   [(⟨gid, planId, "active", startTs, endTs, stars, cid⟩ : SubRow)] },
       "processed") := by
  simp only [process_group_invoice_payment, conditionalPaidUpdate, hfind]
  rw [if_neg (by simp [hcid]), if_neg (by simp [hic]), if_neg (by simp [hsc]),
    if_neg (by simp [hstat]), if_neg (by simp [hrc])]
  rw [if_neg (by simp [hsc])]

lemma process_rag_processed_intro (st : DBState) (iid cid : String)
    (gid : Int) (planId : String) (stars startTs : Int) (endTs : Option Int)
    (hcid : (cid == "") = false)
    (hic : hasInvoiceCharge st.invoices cid = false)
    (hsc : hasSubCharge st.ragSubs cid = false)
    (row : Invoice) (hfind : findInvoice st.invoices iid = some row)
    (hstat : row.status = "created")
    (hrc : updateRowcount st.invoices iid = 1) :
    process_rag_invoice_payment st iid cid gid planId stars startTs endTs =
      ({ st with invoices := st.invoices.map (markPaid iid cid),
                 ragSubs := st.ragSubs ++
                   [(⟨gid, planId, "active", startTs, endTs, stars, cid⟩ : SubRow)] },
       "processed") := by
  simp only [process_rag_invoice_payment, conditionalPaidUpdate, hfind]
  rw [if_neg (by simp [hcid]), if_neg (by simp [hic]), if_neg (by simp [hsc]),
    if_neg (by simp [hstat]), if_neg (by simp [hrc])]
  rw [if_neg (by simp [hsc])]

/-- C8: confirming a group invoice of the 30-day plan at instant now inserts
a subscription row with startTs = now and endTs = now + 30 * 86400, so the
subscription info one second later is active with that endTs, and at
now + 31 * 86400 it is inactive; confirming a charter invoice (no duration)
inserts endTs = null and the info is active with a null endTs at every
instant. The freshness hypotheses say the charge id is new and every earlier
row of the group started strictly before now, and the rowcount hypothesis is
the uniqueness of the invoice primary key. -/
theorem C8_group_window_scenarios :
    (∀ (st : DBState) (payload : String) (fu ta : Int) (cur cid : String)
        (now gid : Int) (inv : Invoice),
       findInvoice st.invoices payload = some inv →
       inv.planId = .group "group_monthly" gid →
       inv.status = "created" →
       inv.userId = fu →
       now - inv.createdAt ≤ INVOICE_TTL_SECONDS →
       amount_from_total ta cur = 150 →
       inv.amount = 150 →
       (cid == "") = false →
       hasInvoiceCharge st.invoices cid = false →
       hasSubCharge st.groupSubs cid = false →
       updateRowcount st.invoices payload = 1 →
       (∀ s ∈ st.groupSubs, s.groupId = gid → s.startTs < now) →
       (successful_payment st payload fu ta cur cid now).2 = PayOutcome.processed ∧
       (successful_payment st payload fu ta cur cid now).1.groupSubs =
         st.groupSubs ++ [(⟨gid, "group_monthly", "active", now,
           some (now + 30 * 86400), 150, cid⟩ : SubRow)] ∧
       get_group_subscription_info (successful_payment st payload fu ta cur cid now).1
         gid (now + 1) =
         ⟨true, some (now + 30 * 86400), some "group_monthly"⟩ ∧
       (get_group_subscription_info (successful_payment st payload fu ta cur cid now).1
         gid (now + 31 * 86400)).active = false) ∧
    (∀ (st : DBState) (payload : String) (fu ta : Int) (cur cid : String)
        (now gid : Int) (inv : Invoice),
       findInvoice st.invoices payload = some inv →
       inv.planId = .group "group_charter" gid →
       inv.status = "created" →
       inv.userId = fu →
       now - inv.createdAt ≤ INVOICE_TTL_SECONDS →
       amount_from_total ta cur = 4000 →
       inv.amount = 4000 →
       (cid == "") = false →
       hasInvoiceCharge st.invoices cid = false →
       hasSubCharge st.groupSubs cid = false →
       updateRowcount st.invoices payload = 1 →
       (∀ s ∈ st.groupSubs, s.groupId = gid → s.startTs < now) →
       (successful_payment st payload fu ta cur cid now).2 = PayOutcome.processed ∧
       (successful_payment st payload fu ta cur cid now).1.groupSubs =
         st.groupSubs ++ [(⟨gid, "group_charter", "active", now, none, 4000, cid⟩ : SubRow)] ∧
       (∀ n, get_group_subscription_info (successful_payment st payload fu ta cur cid now).1
          gid n = ⟨true, none, some "group_charter"⟩)) := by
  constructor
  · intro st payload fu ta cur cid now gid inv hfind hplan hstatus hpayer httl
      hamt hinvamt hcid hic hsc hrc hfresh
    have hdb := process_group_processed_intro st payload cid gid "group_monthly" 150 now
      (some (now + 30 * 86400)) hcid hic hsc inv hfind hstatus hrc
    have hrun : successful_payment st payload fu ta cur cid now =
        ({ st with invoices := st.invoices.map (markPaid payload cid),
                   groupSubs := st.groupSubs ++ [(⟨gid, "group_monthly", "active", now,
                     some (now + 30 * 86400), 150, cid⟩ : SubRow)] },
         PayOutcome.processed) := by
      simp only [successful_payment, hfind]
      rw [if_neg (by simp [hpayer]), if_neg (by simp [hstatus]), if_neg (by omega),
        if_neg (by simp [hamt, hinvamt])]
      simp only [hplan, parse_group_plan_key]
      have hgp : GROUP_PLANS "group_monthly" =
          some ⟨"group_monthly", "Monthly", 150, some 30⟩ := rfl
      simp only [hgp]
      rw [if_neg (by simp [hamt])]
      rw [show Option.map (fun d => now + d * 86400) (some (30 : Int)) =
        some (now + 30 * 86400) from rfl]
      rw [hdb]
      simp
    have hlatest : latestSubRow (st.groupSubs ++ [(⟨gid, "group_monthly", "active", now,
        some (now + 30 * 86400), 150, cid⟩ : SubRow)]) gid =
        some ⟨gid, "group_monthly", "active", now, some (now + 30 * 86400), 150, cid⟩ :=
      latestSubRow_append_new st.groupSubs gid _ rfl hfresh
    refine ⟨by rw [hrun], by rw [hrun], ?_, ?_⟩
    · rw [hrun]
      unfold get_group_subscription_info
      simp only [hlatest]
      have hl : subRowLive (now + 1) (⟨gid, "group_monthly", "active", now,
          some (now + 30 * 86400), 150, cid⟩ : SubRow) = true := by
        simp [subRowLive]
      rw [hl]
    · rw [hrun]
      unfold get_group_subscription_info
      simp only [hlatest]
      have hl : subRowLive (now + 31 * 86400) (⟨gid, "group_monthly", "active", now,
          some (now + 30 * 86400), 150, cid⟩ : SubRow) = false := by
        simp [subRowLive]
      rw [hl]
  · intro st payload fu ta cur cid now gid inv hfind hplan hstatus hpayer httl
      hamt hinvamt hcid hic hsc hrc hfresh
    have hdb := process_group_processed_intro st payload cid gid "group_charter" 4000 now
      none hcid hic hsc inv hfind hstatus hrc
    have hrun : successful_payment st payload fu ta cur cid now =
        ({ st with invoices := st.invoices.map (markPaid payload cid),
                   groupSubs := st.groupSubs ++
                     [(⟨gid, "group_charter", "active", now, none, 4000, cid⟩ : SubRow)] },
         PayOutcome.processed) := by
      simp only [successful_payment, hfind]
      rw [if_neg (by simp [hpayer]), if_neg (by simp [hstatus]), if_neg (by omega),
        if_neg (by simp [hamt, hinvamt])]
      simp only [hplan, parse_group_plan_key]
      have hgp : GROUP_PLANS "group_charter" =
          some ⟨"group_charter", "Charter", 4000, none⟩ := rfl
      simp only [hgp]
      rw [if_neg (by simp [hamt])]
      rw [show Option.map (fun d => now + d * 86400) (none : Option Int) = none from rfl]
      rw [hdb]
      simp
    have hlatest : latestSubRow (st.groupSubs ++
        [(⟨gid, "group_charter", "active", now, none, 4000, cid⟩ : SubRow)]) gid =
        some ⟨gid, "group_charter", "active", now, none, 4000, cid⟩ :=
      latestSubRow_append_new st.groupSubs gid _ rfl hfresh
    refine ⟨by rw [hrun], by rw [hrun], ?_⟩
    intro n
    rw [hrun]
    unfold get_group_subscription_info
    simp only [hlatest]
    have hl : subRowLive n (⟨gid, "group_charter", "active", now,
        none, 4000, cid⟩ : SubRow) = true := by
      simp [subRowLive]
    rw [hl]

/-- C8 witness: the two window scenarios evaluated on exStGroup and
exStCharter with confirmation at instant 1005. -/
theorem C8_witness :
    (successful_payment exStGroup "gv1" 7 150 "XTR" "cg-1" 1005).2 =
      PayOutcome.processed ∧
    get_group_subscription_info
      (successful_payment exStGroup "gv1" 7 150 "XTR" "cg-1" 1005).1
      100 (1005 + 1) = ⟨true, some (1005 + 30 * 86400), some "group_monthly"⟩ ∧
    (get_group_subscription_info
      (successful_payment exStGroup "gv1" 7 150 "XTR" "cg-1" 1005).1
      100 (1005 + 31 * 86400)).active = false ∧
    get_group_subscription_info
      (successful_payment exStCharter "cv1" 7 4000 "XTR" "cc-1" 1005).1
      100 99999999 = ⟨true, none, some "group_charter"⟩ := by
  have h1 := C8_group_window_scenarios.1 exStGroup "gv1" 7 150 "XTR" "cg-1" 1005 100
    ⟨"gv1", 7, .group "group_monthly" 100, 150, "XTR", "created", 1000, none⟩
    (by decide) rfl rfl rfl (by decide) (by decide) rfl (by decide) (by decide)
    (by decide) (by decide) (by simp [exStGroup])
  have h2 := C8_group_window_scenarios.2 exStCharter "cv1" 7 4000 "XTR" "cc-1" 1005 100
    ⟨"cv1", 7, .group "group_charter" 100, 4000, "XTR", "created", 1000, none⟩
    (by decide) rfl rfl rfl (by decide) (by decide) rfl (by decide) (by decide)
    (by decide) (by decide) (by simp [exStCharter])
  exact ⟨h1.1, h1.2.2.1, h1.2.2.2, h2.2.2 99999999⟩

/-- C6: confirming a RAG add-on invoice for a group whose base subscription
is live at the instant of confirmation is processed and appends an
AddonSubscription row whose window ends at now + durationDays * 86400
(durationDays = 30 for rag_monthly); the addon info afterwards reports it
active at any instant before that end; and the addon projection is computed
from the addon ledger alone, so it does not change when the base group
subscription ledger does. The freshness and rowcount hypotheses are as in the
group scenario, on the addon ledger. -/
theorem C6_addon_window (st : DBState) (payload : String) (fu ta : Int)
    (cur cid : String) (now gid : Int) (inv : Invoice)
    (hfind : findInvoice st.invoices payload = some inv)
    (hplan : inv.planId = .rag "rag_monthly" gid)
    (hstatus : inv.status = "created")
    (hpayer : inv.userId = fu)
    (httl : now - inv.createdAt ≤ INVOICE_TTL_SECONDS)
    (hamt : amount_from_total ta cur = 50)
    (hinvamt : inv.amount = 50)
    (hcid : (cid == "") = false)
    (hic : hasInvoiceCharge st.invoices cid = false)
    (hsc : hasSubCharge st.ragSubs cid = false)
    (hrc : updateRowcount st.invoices payload = 1)
    (hbase : group_subscription_active st gid now = true)
    (hfresh : ∀ s ∈ st.ragSubs, s.groupId = gid → s.startTs < now) :
    (successful_payment st payload fu ta cur cid now).2 = PayOutcome.processed ∧
    (successful_payment st payload fu ta cur cid now).1.ragSubs =
      st.ragSubs ++ [(⟨gid, "rag_monthly", "active", now,
        some (now + 30 * 86400), 50, cid⟩ : SubRow)] ∧
    (∀ n, n < now + 30 * 86400 →
       get_group_rag_subscription_info
         (successful_payment st payload fu ta cur cid now).1 gid n =
         ⟨true, some (now + 30 * 86400), some "rag_monthly"⟩) ∧
    (∀ st1 st2 g n, st1.ragSubs = st2.ragSubs →
       get_group_rag_subscription_info st1 g n =
       get_group_rag_subscription_info st2 g n) := by
  have hdb := process_rag_processed_intro st payload cid gid "rag_monthly" 50 now
    (some (now + 30 * 86400)) hcid hic hsc inv hfind hstatus hrc
  have hrun : successful_payment st payload fu ta cur cid now =
      ({ st with invoices := st.invoices.map (markPaid payload cid),
                 ragSubs := st.ragSubs ++ [(⟨gid, "rag_monthly", "active", now,
                   some (now + 30 * 86400), 50, cid⟩ : SubRow)] },
       PayOutcome.processed) := by
    simp only [successful_payment, hfind]
    rw [if_neg (by simp [hpayer]), if_neg (by simp [hstatus]), if_neg (by omega),
      if_neg (by simp [hamt, hinvamt])]
    simp only [hplan, parse_group_plan_key, parse_rag_plan_key]
    have hgp : RAG_ADDON_PLANS "rag_monthly" =
        some ⟨"rag_monthly", "RAG Monthly Add-On", 50, some 30⟩ := rfl
    simp only [hgp]
    rw [if_neg (by simp [hamt]), if_neg (by simp [hbase])]
    rw [show Option.map (fun d => now + d * 86400) (some (30 : Int)) =
      some (now + 30 * 86400) from rfl]
    rw [hdb]
    simp
  have hlatest : latestSubRow (st.ragSubs ++ [(⟨gid, "rag_monthly", "active", now,
      some (now + 30 * 86400), 50, cid⟩ : SubRow)]) gid =
      some ⟨gid, "rag_monthly", "active", now, some (now + 30 * 86400), 50, cid⟩ :=
    latestSubRow_append_new st.ragSubs gid _ rfl hfresh
  refine ⟨by rw [hrun], by rw [hrun], ?_, ?_⟩
  · intro n hn
    rw [hrun]
    unfold get_group_rag_subscription_info
    simp only [hlatest]
    have hl : subRowLive n (⟨gid, "rag_monthly", "active", now,
        some (now + 30 * 86400), 50, cid⟩ : SubRow) = true := by
      simp [subRowLive]
      omega
    rw [hl]
  · intro st1 st2 g n h
    exact get_group_rag_subscription_info_congr st1 st2 h g n

/-- C6 witness: the addon scenario evaluated on exStRag, whose base
subscription for group 100 is live at instant 1005, querying the addon info
at instant 2000. -/
theorem C6_witness :
    (successful_payment exStRag "rv1" 7 50 "XTR" "cr-1" 1005).2 =
      PayOutcome.processed ∧
    get_group_rag_subscription_info
      (successful_payment exStRag "rv1" 7 50 "XTR" "cr-1" 1005).1 100 2000 =
      ⟨true, some (1005 + 30 * 86400), some "rag_monthly"⟩ := by
  have h := C6_addon_window exStRag "rv1" 7 50 "XTR" "cr-1" 1005 100
    ⟨"rv1", 7, .rag "rag_monthly" 100, 50, "XTR", "created", 1000, none⟩
    (by decide) rfl rfl rfl (by decide) (by decide) rfl (by decide) (by decide)
    (by decide) (by decide) (by decide) (by simp [exStRag])
  exact ⟨h.1, h.2.2.1 2000 (by decide)⟩

end Resolver
